import Mathlib

/-!
Verification development for the single-page data chatbot `app.py`.

The script lets a user upload JSON files, asks a locally hosted chat model
to generate Python code from a text summary of the data, strips markdown
fences from the response, executes the code with `exec(code, {}, local_vars)`
where `local_vars` binds `datasets`, `pd`, `px` and `go`, and finally renders
`fig` as a chart, else `df_result` as a table, else a warning, all inside a
single try/except that displays the exception message.

External effects (the ollama chat call, `exec`, the streamlit render calls)
are modelled as oracle functions collected in a `World`; the handler is
embedded as `runQuery`, which records the sequence of observable events.
-/

/-- JSON values, the parsed content of an uploaded file (`json.load`). -/
inductive Json where
  | null : Json
  | bool : Bool → Json
  | num : Int → Json
  | str : String → Json
  | arr : List Json → Json
  | obj : List (String × Json) → Json

/-- Escape of one character inside a JSON string literal
(models `json.dumps` escaping for the common characters). -/
def escChar (c : Char) : String :=
  if c = Char.ofNat 34 then "\\\""
  else if c = Char.ofNat 92 then "\\\\"
  else if c = Char.ofNat 10 then "\\n"
  else if c = Char.ofNat 9 then "\\t"
  else if c = Char.ofNat 13 then "\\r"
  else String.singleton c

/-- Escape a whole string for JSON output. -/
def escapeStr (s : String) : String :=
  s.data.foldl (fun acc c => acc ++ escChar c) ""

mutual
/-- Serialization of a JSON value; models Python `json.dumps` with its
default separators. -/
def dumps : Json → String
  | Json.null => "null"
  | Json.bool b => if b then "true" else "false"
  | Json.num n => toString n
  | Json.str s => "\"" ++ escapeStr s ++ "\""
  | Json.arr xs => "[" ++ dumpsList xs ++ "]"
  | Json.obj fs => "\x7b" ++ dumpsObj fs ++ "\x7d"

/-- Comma-separated serialization of the elements of a JSON array. -/
def dumpsList : List Json → String
  | [] => ""
  | [x] => dumps x
  | x :: y :: rest => dumps x ++ ", " ++ dumpsList (y :: rest)

/-- Comma-separated serialization of the fields of a JSON object. -/
def dumpsObj : List (String × Json) → String
  | [] => ""
  | [p] => "\"" ++ escapeStr p.1 ++ "\": " ++ dumps p.2
  | p :: q :: rest => "\"" ++ escapeStr p.1 ++ "\": " ++ dumps p.2 ++ ", " ++ dumpsObj (q :: rest)
end

/-- Insertion into a Python dict modelled as an insertion-ordered
association list: `d[k] = v` keeps the original position of an existing
key and updates its value, and appends a fresh key at the end. -/
def dictInsert (k : String) (v : α) : List (String × α) → List (String × α)
  | [] => [(k, v)]
  | (k', v') :: rest => if k' = k then (k, v) :: rest else (k', v') :: dictInsert k v rest

/-- Lookup in the association-list model of a Python dict. -/
def dictLookup (k : String) : List (String × α) → Option α
  | [] => none
  | (k', v) :: rest => if k' = k then some v else dictLookup k rest

/-- The keys of the association-list model of a Python dict, in order. -/
def dictKeys (d : List (String × α)) : List String :=
  d.map Prod.fst

/-- An uploaded file as the handler sees it: its name together with the
JSON content that `json.load` parses out of it. -/
structure UploadedFile where
  name : String
  content : Json

/-- `load_data_registry(uploaded_files)`: builds `\x7bf.name: json.load(f)\x7d`
over the uploaded files; `none` models the absent upload list (the
falsy `None` returned by the uploader), which like the empty list
yields the empty registry. -/
def load_data_registry : Option (List UploadedFile) → List (String × Json)
  | none => []
  | some files => files.foldl (fun reg f => dictInsert f.name f.content reg) []

/-- The last element of a list satisfying a predicate, if any. -/
def findLast (p : α → Bool) : List α → Option α
  | [] => none
  | x :: xs =>
    match findLast p xs with
    | some y => some y
    | none => if p x then some x else none

/-- The sample portion of one dataset's summary block: the first element
for a non-empty list, the first two key-value pairs for a dict, nothing
otherwise. -/
def samplePart : Json → String
  | Json.arr (x :: _) => "Sample: " ++ dumps (Json.arr [x]) ++ "\n"
  | Json.obj fields => "Sample: " ++ dumps (Json.obj (fields.take 2)) ++ "\n"
  | _ => ""

/-- One dataset's block of the data summary: header line with the file
name, then the schema serialized as JSON when a schema with the same
name is registered, then the sample. -/
def datasetBlock (schemaReg : List (String × Json)) (name : String) (data : Json) : String :=
  "\n--- DATASET: " ++ name ++ " ---\n"
  ++ (match dictLookup name schemaReg with
      | some sc => "Schema: " ++ dumps sc ++ "\n"
      | none => "")
  ++ samplePart data

/-- `get_data_summary(data_registry, schema_registry)`: iterates the data
registry in order, appending for each dataset a header, a schema line when
`name in schema_registry`, and a sample (`data[:1]` for a non-empty list,
the first two items for a dict). -/
def get_data_summary (dataReg schemaReg : List (String × Json)) : String :=
  dataReg.foldl
    (fun summary p =>
      let summary := summary ++ "\n--- DATASET: " ++ p.1 ++ " ---\n"
      let summary :=
        match dictLookup p.1 schemaReg with
        | some sc => summary ++ "Schema: " ++ dumps sc ++ "\n"
        | none => summary
      match p.2 with
      | Json.arr (x :: _) => summary ++ "Sample: " ++ dumps (Json.arr [x]) ++ "\n"
      | Json.obj fields => summary ++ "Sample: " ++ dumps (Json.obj (fields.take 2)) ++ "\n"
      | _ => summary)
    ""

/-- Concatenation of a list of strings. -/
def concatAll : List String → String
  | [] => ""
  | s :: rest => s ++ concatAll rest

/-- One message of a chat request, with its role and content. -/
structure ChatMessage where
  role : String
  content : String

/-- A chat-completion request as passed to `ollama.chat`. -/
structure ChatRequest where
  model : String
  messages : List ChatMessage

/-- The system prompt template of `get_local_response`, instantiated with
the data summary and the user query (the f-string at lines 57-75). -/
def systemPrompt (dataSummary userQuery : String) : String :=
  "\n    You are a Python Data Scientist. \n    You have a dictionary named `datasets` containing multiple JSON files.\n    \n    The keys of the dictionary are the filenames.\n    \n    Here is the overview of the loaded data:\n    "
  ++ dataSummary
  ++ "\n\n    Task: Write Python code to answer: \"" ++ userQuery
  ++ "\"\n    \n    CRITICAL RULES:\n    1. Access data using `datasets[\x27filename.json\x27]`.\n    2. To join data, convert them to pandas DataFrames first.\n    3. Use `pd.json_normalize()` if data is nested.\n    4. Save the final table to `df_result`.\n    5. Save the final chart to `fig`.\n    6. OUTPUT ONLY CODE. NO MARKDOWN.\n    "

/-- The single chat request `get_local_response` issues: the fixed local
model name and the system/user message pair. -/
def mkChatRequest (userQuery dataSummary : String) : ChatRequest :=
  ChatRequest.mk "qwen2.5-coder:1.5b"
    [ChatMessage.mk "system" (systemPrompt dataSummary userQuery),
     ChatMessage.mk "user" userQuery]

/-- `get_local_response(user_query, data_summary)` with the `ollama.chat`
call abstracted as an oracle that either returns the message content or
raises with a message: on success the content is returned, on exception
the handler inside the function returns the string `"Error: " + str(e)`. -/
def get_local_response (userQuery dataSummary : String)
    (chat : ChatRequest → Except String String) : String :=
  match chat (mkChatRequest userQuery dataSummary) with
  | Except.ok content => content
  | Except.error e => "Error: " ++ e

/-- A value living in the executed code's variable environment. -/
inductive PyVal where
  | datasetsV : List (String × Json) → PyVal
  | pdMod : PyVal
  | pxMod : PyVal
  | goMod : PyVal
  | objV : String → PyVal

/-- The oracles for the effectful calls the handler makes: the chat model,
`exec` (given code, globals and locals, returning the final locals or
raising), and the two streamlit render calls (which may raise). -/
structure World where
  chat : ChatRequest → Except String String
  exec : String → List (String × PyVal) → List (String × PyVal) →
      Except String (List (String × PyVal))
  renderChart : PyVal → Except String Unit
  renderTable : PyVal → Except String Unit

/-- The observable events of one button press. -/
inductive Event where
  | summaryBuilt : String → Event
  | chatCalled : ChatRequest → Event
  | codeShown : String → Event
  | execCalled : String → List (String × PyVal) → List (String × PyVal) → Event
  | chartShown : PyVal → Event
  | tableShown : PyVal → Event
  | warned : String → Event
  | errored : String → Event

/-- Is the event the `exec` call? -/
def isExecCalled : Event → Bool
  | Event.execCalled _ _ _ => true
  | _ => false

/-- Is the event the chat call? -/
def isChatCalled : Event → Bool
  | Event.chatCalled _ => true
  | _ => false

/-- Is the event an error display (`st.error`)? -/
def isErrored : Event → Bool
  | Event.errored _ => true
  | _ => false

/-- The initial `local_vars` dictionary passed to `exec`:
`\x7b"datasets": data_registry, "pd": pd, "px": px, "go": go\x7d`. -/
def initialLocals (dataReg : List (String × Json)) : List (String × PyVal) :=
  [("datasets", PyVal.datasetsV dataReg), ("pd", PyVal.pdMod),
   ("px", PyVal.pxMod), ("go", PyVal.goMod)]

/-- The warning shown when the executed code populated neither result slot. -/
def noResultMsg : String := "Code ran but produced no \x27fig\x27 or \x27df_result\x27."

/-- Does `pat` occur at the very start of `l`? -/
def startsWithPat : List Char → List Char → Bool
  | [], _ => true
  | _ :: _, [] => false
  | p :: ps, c :: cs => p == c && startsWithPat ps cs

/-- Does `pat` occur anywhere inside `l`? -/
def hasSub (pat : List Char) : List Char → Bool
  | [] => startsWithPat pat []
  | c :: rest => startsWithPat pat (c :: rest) || hasSub pat rest

/-- Python `s.replace(pat, "")` for a non-empty pattern: scan left to
right, deleting each leftmost non-overlapping occurrence. -/
def removeAll (pat : List Char) : List Char → List Char
  | [] => []
  | c :: rest =>
    if h : pat ≠ [] ∧ startsWithPat pat (c :: rest) = true then
      removeAll pat ((c :: rest).drop pat.length)
    else
      c :: removeAll pat rest
termination_by l => l.length
decreasing_by
  · simp only [List.length_drop, List.length_cons]
    cases pat with
    | nil => exact absurd rfl h.1
    | cons p ps => simp only [List.length_cons]; omega
  · simp only [List.length_cons]; omega

/-- Python whitespace as recognized by `str.strip()`. -/
def wsChar (c : Char) : Bool :=
  c == Char.ofNat 32 || c == Char.ofNat 9 || c == Char.ofNat 10 ||
  c == Char.ofNat 13 || c == Char.ofNat 11 || c == Char.ofNat 12

/-- Remove the maximal trailing run of characters satisfying `p`. -/
def dropTrailing (p : Char → Bool) : List Char → List Char
  | [] => []
  | c :: rest =>
    match dropTrailing p rest with
    | [] => if p c then [] else [c]
    | r => c :: r

/-- Python `s.strip()`: drop leading and trailing whitespace. -/
def pyStrip (l : List Char) : List Char :=
  dropTrailing wsChar (l.dropWhile wsChar)

/-- The sanitization at line 121:
`code.replace("```python", "").replace("```", "").strip()`. -/
def sanitize (s : String) : String :=
  String.mk (pyStrip (removeAll ("```".data) (removeAll ("```python".data) s.data)))

/-- The body of the `Generate View` button handler (lines 110-140): warn on
empty input, else build the summary, obtain and sanitize the model response,
display the code, `exec` it with empty globals and the fixed locals, then
render `fig`, else `df_result`, else a warning; any exception raised by
`exec` or a render call reaches the catch-all, which displays its message.
Returns the ordered list of observable events. -/
def runQuery (dataReg schemaReg : List (String × Json)) (userInput : String)
    (w : World) : List Event :=
  if userInput = "" then [Event.warned "Please type a request."]
  else
    let summary := get_data_summary dataReg schemaReg
    let code := sanitize (get_local_response userInput summary w.chat)
    let pre := [Event.summaryBuilt summary,
                Event.chatCalled (mkChatRequest userInput summary),
                Event.codeShown code,
                Event.execCalled code [] (initialLocals dataReg)]
    match w.exec code [] (initialLocals dataReg) with
    | Except.error e => pre ++ [Event.errored ("Error: " ++ e)]
    | Except.ok env =>
      match dictLookup "fig" env with
      | some v =>
        match w.renderChart v with
        | Except.ok _ => pre ++ [Event.chartShown v]
        | Except.error e => pre ++ [Event.errored ("Error: " ++ e)]
      | none =>
        match dictLookup "df_result" env with
        | some v =>
          match w.renderTable v with
          | Except.ok _ => pre ++ [Event.tableShown v]
          | Except.error e => pre ++ [Event.errored ("Error: " ++ e)]
        | none => pre ++ [Event.warned noResultMsg]

/-! ### Helper lemmas about fence removal and stripping -/

/-- The backtick character. -/
def bq : Char := Char.ofNat 96

lemma fence_data : "```".data = [bq, bq, bq] := by decide

lemma removeAll_nil (pat : List Char) : removeAll pat [] = [] := by
  simp [removeAll]

lemma removeAll_cons_pos (pat : List Char) (c : Char) (rest : List Char)
    (h1 : pat ≠ []) (h2 : startsWithPat pat (c :: rest) = true) :
    removeAll pat (c :: rest) = removeAll pat ((c :: rest).drop pat.length) := by
  rw [removeAll]
  rw [dif_pos ⟨h1, h2⟩]

lemma removeAll_cons_neg (pat : List Char) (c : Char) (rest : List Char)
    (h : ¬(pat ≠ [] ∧ startsWithPat pat (c :: rest) = true)) :
    removeAll pat (c :: rest) = c :: removeAll pat rest := by
  rw [removeAll]
  rw [dif_neg h]

lemma one_tick_stable (l : List Char) (h : startsWithPat [bq] l = false) :
    startsWithPat [bq] (removeAll [bq, bq, bq] l) = false := by
  cases l with
  | nil => simp [removeAll_nil, startsWithPat]
  | cons c rest =>
    have hc : (bq == c) = false := by simpa [startsWithPat] using h
    rw [removeAll_cons_neg]
    · simp [startsWithPat, hc]
    · intro hcon
      have := hcon.2
      simp [startsWithPat, hc] at this

lemma two_ticks_stable (l : List Char) (h : startsWithPat [bq, bq] l = false) :
    startsWithPat [bq, bq] (removeAll [bq, bq, bq] l) = false := by
  cases l with
  | nil => simp [removeAll_nil, startsWithPat]
  | cons c rest =>
    by_cases hc : (bq == c) = true
    · have hr : startsWithPat [bq] rest = false := by
        cases hb : startsWithPat [bq] rest with
        | false => rfl
        | true =>
          rw [show startsWithPat [bq, bq] (c :: rest) = ((bq == c) && startsWithPat [bq] rest)
              from rfl, hc, hb] at h
          simp at h
      have h2 : startsWithPat [bq, bq] rest = false := by
        cases rest with
        | nil => rfl
        | cons d ds =>
          have hd : (bq == d) = false := by simpa [startsWithPat] using hr
          simp [startsWithPat, hd]
      rw [removeAll_cons_neg]
      · simp only [startsWithPat, hc, Bool.true_and]
        exact one_tick_stable rest hr
      · intro hcon
        have := hcon.2
        simp [startsWithPat, hc, h2] at this
    · have hc' : (bq == c) = false := by
        cases hb : (bq == c) with
        | false => rfl
        | true => exact absurd hb hc
      rw [removeAll_cons_neg]
      · simp [startsWithPat, hc']
      · intro hcon
        have := hcon.2
        simp [startsWithPat, hc'] at this

lemma removeAll_ticks_clean :
    ∀ (n : Nat) (l : List Char), l.length ≤ n →
      hasSub [bq, bq, bq] (removeAll [bq, bq, bq] l) = false := by
  intro n
  induction n with
  | zero =>
    intro l hl
    have : l = [] := List.eq_nil_of_length_eq_zero (Nat.le_zero.mp hl)
    subst this
    simp [removeAll_nil, hasSub, startsWithPat]
  | succ n ih =>
    intro l hl
    cases l with
    | nil => simp [removeAll_nil, hasSub, startsWithPat]
    | cons c rest =>
      by_cases hcond : startsWithPat [bq, bq, bq] (c :: rest) = true
      · rw [removeAll_cons_pos _ _ _ (by simp) hcond]
        apply ih
        simp only [List.length_drop, List.length_cons]
        simp only [List.length_cons] at hl
        omega
      · rw [removeAll_cons_neg _ _ _ fun hh => hcond hh.2]
        have hu : hasSub [bq, bq, bq] (removeAll [bq, bq, bq] rest) = false := by
          apply ih
          simp only [List.length_cons] at hl
          omega
        simp only [hasSub, hu, Bool.or_false]
        by_cases hc : (bq == c) = true
        · have h2 : startsWithPat [bq, bq] rest = false := by
            cases hb : startsWithPat [bq, bq] rest with
            | false => rfl
            | true =>
              exact absurd
                (by rw [show startsWithPat [bq, bq, bq] (c :: rest)
                      = ((bq == c) && startsWithPat [bq, bq] rest) from rfl, hc, hb]; rfl)
                hcond
          have hstable := two_ticks_stable rest h2
          rw [show startsWithPat [bq, bq, bq] (c :: removeAll [bq, bq, bq] rest)
              = ((bq == c) && startsWithPat [bq, bq] (removeAll [bq, bq, bq] rest)) from rfl,
            hc, hstable]
          rfl
        · have hc' : (bq == c) = false := by
            cases hb : (bq == c) with
            | false => rfl
            | true => exact absurd hb hc
          rw [show startsWithPat [bq, bq, bq] (c :: removeAll [bq, bq, bq] rest)
              = ((bq == c) && startsWithPat [bq, bq] (removeAll [bq, bq, bq] rest)) from rfl,
            hc']
          rfl

lemma startsWithPat_append (pat u w : List Char) (h : startsWithPat pat u = true) :
    startsWithPat pat (u ++ w) = true := by
  induction pat generalizing u with
  | nil => simp [startsWithPat]
  | cons p ps ih =>
    cases u with
    | nil => simp [startsWithPat] at h
    | cons c cs =>
      simp only [startsWithPat, Bool.and_eq_true] at h
      simp only [List.cons_append, startsWithPat, Bool.and_eq_true]
      exact ⟨h.1, ih cs h.2⟩

lemma hasSub_nil_pat (w : List Char) : hasSub [] w = true := by
  cases w <;> simp [hasSub, startsWithPat]

lemma hasSub_append_left (pat u w : List Char) (h : hasSub pat u = true) :
    hasSub pat (u ++ w) = true := by
  induction u with
  | nil =>
    cases pat with
    | nil => simp [hasSub_nil_pat]
    | cons p ps => simp [hasSub, startsWithPat] at h
  | cons c cs ih =>
    simp only [hasSub, Bool.or_eq_true] at h
    rcases h with h | h
    · simp only [List.cons_append, hasSub, Bool.or_eq_true]
      exact Or.inl (by simpa using startsWithPat_append pat (c :: cs) w h)
    · simp only [List.cons_append, hasSub, Bool.or_eq_true]
      exact Or.inr (ih h)

lemma hasSub_append_right (pat u w : List Char) (h : hasSub pat u = true) :
    hasSub pat (w ++ u) = true := by
  induction w with
  | nil => simpa
  | cons c cs ih =>
    simp only [List.cons_append, hasSub, Bool.or_eq_true]
    exact Or.inr ih

lemma dropTrailing_prefix (p : Char → Bool) :
    ∀ l : List Char, ∃ u, l = dropTrailing p l ++ u := by
  intro l
  induction l with
  | nil => exact ⟨[], rfl⟩
  | cons c rest ih =>
    obtain ⟨u, hu⟩ := ih
    simp only [dropTrailing]
    cases hr : dropTrailing p rest with
    | nil =>
      by_cases hc : p c = true
      · simp only [hc, if_true]
        exact ⟨c :: rest, rfl⟩
      · simp only [hc, if_false]
        exact ⟨rest, rfl⟩
    | cons d ds =>
      rw [hr] at hu
      exact ⟨u, by rw [List.cons_append, ← hu]⟩

lemma hasSub_pyStrip (pat l : List Char) (h : hasSub pat (pyStrip l) = true) :
    hasSub pat l = true := by
  obtain ⟨u, hu⟩ := dropTrailing_prefix wsChar (l.dropWhile wsChar)
  have h1 : hasSub pat (l.dropWhile wsChar) = true := by
    rw [hu]
    exact hasSub_append_left _ _ _ h
  have h2 := hasSub_append_right pat _ (l.takeWhile wsChar) h1
  rwa [List.takeWhile_append_dropWhile] at h2

lemma sanitize_no_ticks (s : String) : hasSub ("```".data) (sanitize s).data = false := by
  have hdata : (sanitize s).data
      = pyStrip (removeAll ("```".data) (removeAll ("```python".data) s.data)) := rfl
  rw [hdata, fence_data]
  cases hres : hasSub [bq, bq, bq]
      (pyStrip (removeAll [bq, bq, bq] (removeAll ("```python".data) s.data))) with
  | false => rfl
  | true =>
    have h1 := hasSub_pyStrip _ _ hres
    have h2 := removeAll_ticks_clean (removeAll ("```python".data) s.data).length
      (removeAll ("```python".data) s.data) le_rfl
    rw [h1] at h2
    exact absurd h2 (by simp)

/-! ### Helper lemmas about the dict model and the registry -/

lemma dictLookup_insert (k k' : String) (v : α) (l : List (String × α)) :
    dictLookup k (dictInsert k' v l) = if k' = k then some v else dictLookup k l := by
  induction l with
  | nil => simp [dictInsert, dictLookup]
  | cons p rest ih =>
    obtain ⟨a, b⟩ := p
    by_cases hak : a = k'
    · subst hak
      simp only [dictInsert, if_pos rfl, dictLookup]
      by_cases h : a = k <;> simp [h]
    · simp only [dictInsert, if_neg hak, dictLookup]
      by_cases h : a = k
      · subst h
        have : ¬ k' = a := fun hh => hak hh.symm
        simp [this]
      · simp [h, ih]

lemma findLast_mem {p : α → Bool} {l : List α} {y : α} (h : findLast p l = some y) :
    y ∈ l ∧ p y = true := by
  induction l with
  | nil => simp [findLast] at h
  | cons x xs ih =>
    simp only [findLast] at h
    cases hx : findLast p xs with
    | some z =>
      rw [hx] at h
      obtain ⟨hm, hp⟩ := ih (hx.trans (by injection h with h; rw [h]))
      exact ⟨List.mem_cons_of_mem _ hm, hp⟩
    | none =>
      rw [hx] at h
      by_cases hpx : p x = true
      · simp [hpx] at h
        exact ⟨by simp [← h], by rw [← h]; exact hpx⟩
      · simp [hpx] at h

lemma findLast_isSome_of_mem {p : α → Bool} {l : List α} {x : α}
    (hm : x ∈ l) (hp : p x = true) : (findLast p l).isSome = true := by
  induction l with
  | nil => simp at hm
  | cons a xs ih =>
    simp only [findLast]
    cases hx : findLast p xs with
    | some z => simp
    | none =>
      rcases List.mem_cons.mp hm with h | h
      · subst h; simp [hp]
      · have hs := ih h
        rw [hx] at hs
        simp at hs

lemma findLast_append (p : α → Bool) (l₁ l₂ : List α) :
    findLast p (l₁ ++ l₂) =
      match findLast p l₂ with
      | some y => some y
      | none => findLast p l₁ := by
  induction l₁ with
  | nil =>
    simp only [List.nil_append, findLast]
    cases findLast p l₂ <;> rfl
  | cons a l ih =>
    have hstep : findLast p ((a :: l) ++ l₂) =
        match findLast p (l ++ l₂) with
        | some y => some y
        | none => if p a = true then some a else none := rfl
    rw [hstep, ih]
    simp only [findLast]
    cases findLast p l₂ <;> cases findLast p l <;> simp

lemma findLast_eq_none {p : α → Bool} {l : List α} (h : ∀ x ∈ l, p x = false) :
    findLast p l = none := by
  induction l with
  | nil => rfl
  | cons a xs ih =>
    simp only [findLast, ih fun x hx => h x (List.mem_cons_of_mem _ hx)]
    simp [h a (List.mem_cons_self a xs)]

lemma load_registry_lookup_aux (name : String) :
    ∀ (files : List UploadedFile) (acc : List (String × Json)),
      dictLookup name (files.foldl (fun reg f => dictInsert f.name f.content reg) acc) =
        match findLast (fun f => f.name == name) files with
        | some g => some g.content
        | none => dictLookup name acc := by
  intro files
  induction files with
  | nil => intro acc; rfl
  | cons f fs ih =>
    intro acc
    simp only [List.foldl_cons, ih, findLast]
    cases hfs : findLast (fun f => f.name == name) fs with
    | some g => rfl
    | none =>
      simp only [dictLookup_insert]
      by_cases h : f.name = name
      · simp [h]
      · simp [h]

/-- Lookup in the loaded registry returns the parsed content of the last
uploaded file bearing the looked-up name, if any. -/
lemma load_registry_lookup (files : List UploadedFile) (name : String) :
    dictLookup name (load_data_registry (some files)) =
      Option.map UploadedFile.content (findLast (fun f => f.name == name) files) := by
  simp only [load_data_registry, load_registry_lookup_aux]
  cases findLast (fun f => f.name == name) files <;> rfl

/-! ### Helper lemmas about the data summary -/

lemma get_data_summary_step (schemaReg : List (String × Json)) (acc : String)
    (p : String × Json) :
    (let summary := acc ++ "\n--- DATASET: " ++ p.1 ++ " ---\n"
     let summary :=
       match dictLookup p.1 schemaReg with
       | some sc => summary ++ "Schema: " ++ dumps sc ++ "\n"
       | none => summary
     match p.2 with
     | Json.arr (x :: _) => summary ++ "Sample: " ++ dumps (Json.arr [x]) ++ "\n"
     | Json.obj fields => summary ++ "Sample: " ++ dumps (Json.obj (fields.take 2)) ++ "\n"
     | _ => summary)
      = acc ++ datasetBlock schemaReg p.1 p.2 := by
  obtain ⟨name, data⟩ := p
  apply String.ext
  cases data with
  | null =>
    cases hs : dictLookup name schemaReg <;>
      simp [hs, datasetBlock, samplePart, String.data_append, List.append_assoc]
  | bool b =>
    cases hs : dictLookup name schemaReg <;>
      simp [hs, datasetBlock, samplePart, String.data_append, List.append_assoc]
  | num n =>
    cases hs : dictLookup name schemaReg <;>
      simp [hs, datasetBlock, samplePart, String.data_append, List.append_assoc]
  | str s =>
    cases hs : dictLookup name schemaReg <;>
      simp [hs, datasetBlock, samplePart, String.data_append, List.append_assoc]
  | arr xs =>
    cases xs with
    | nil =>
      cases hs : dictLookup name schemaReg <;>
        simp [hs, datasetBlock, samplePart, String.data_append, List.append_assoc]
    | cons x rest =>
      cases hs : dictLookup name schemaReg <;>
        simp [hs, datasetBlock, samplePart, String.data_append, List.append_assoc]
  | obj fs =>
    cases hs : dictLookup name schemaReg <;>
      simp [hs, datasetBlock, samplePart, String.data_append, List.append_assoc]

lemma get_data_summary_eq_concat (dataReg schemaReg : List (String × Json)) :
    get_data_summary dataReg schemaReg =
      concatAll (dataReg.map fun p => datasetBlock schemaReg p.1 p.2) := by
  suffices h : ∀ (l : List (String × Json)) (acc : String),
      l.foldl
        (fun summary p =>
          let summary := summary ++ "\n--- DATASET: " ++ p.1 ++ " ---\n"
          let summary :=
            match dictLookup p.1 schemaReg with
            | some sc => summary ++ "Schema: " ++ dumps sc ++ "\n"
            | none => summary
          match p.2 with
          | Json.arr (x :: _) => summary ++ "Sample: " ++ dumps (Json.arr [x]) ++ "\n"
          | Json.obj fields => summary ++ "Sample: " ++ dumps (Json.obj (fields.take 2)) ++ "\n"
          | _ => summary)
        acc = acc ++ concatAll (l.map fun p => datasetBlock schemaReg p.1 p.2) by
    simpa [get_data_summary] using (h dataReg "").trans (String.empty_append _)
  intro l
  induction l with
  | nil => intro acc; simp [concatAll, String.append_empty]
  | cons p rest ih =>
    intro acc
    simp only [List.foldl_cons, List.map_cons, concatAll]
    rw [ih, get_data_summary_step, String.append_assoc]

/-! ### Helper lemmas decomposing a run of the button handler -/

/-- The first four events of every non-empty-input run, in order. -/
def preEvents (dataReg schemaReg : List (String × Json)) (q : String) (w : World) :
    List Event :=
  [Event.summaryBuilt (get_data_summary dataReg schemaReg),
   Event.chatCalled (mkChatRequest q (get_data_summary dataReg schemaReg)),
   Event.codeShown (sanitize (get_local_response q (get_data_summary dataReg schemaReg) w.chat)),
   Event.execCalled (sanitize (get_local_response q (get_data_summary dataReg schemaReg) w.chat))
     [] (initialLocals dataReg)]

/-- The terminal event of a run, as a function of the `exec` outcome and
the result slots. -/
def tailEvents (dataReg : List (String × Json)) (code : String) (w : World) : List Event :=
  match w.exec code [] (initialLocals dataReg) with
  | Except.error e => [Event.errored ("Error: " ++ e)]
  | Except.ok env =>
    match dictLookup "fig" env with
    | some v =>
      match w.renderChart v with
      | Except.ok _ => [Event.chartShown v]
      | Except.error e => [Event.errored ("Error: " ++ e)]
    | none =>
      match dictLookup "df_result" env with
      | some v =>
        match w.renderTable v with
        | Except.ok _ => [Event.tableShown v]
        | Except.error e => [Event.errored ("Error: " ++ e)]
      | none => [Event.warned noResultMsg]

lemma runQuery_decomp (dataReg schemaReg : List (String × Json)) (q : String)
    (w : World) (hq : ¬ q = "") :
    runQuery dataReg schemaReg q w =
      preEvents dataReg schemaReg q w ++
        tailEvents dataReg
          (sanitize (get_local_response q (get_data_summary dataReg schemaReg) w.chat)) w := by
  simp only [runQuery, preEvents, tailEvents, if_neg hq]
  repeat' first
    | rfl
    | split

lemma preEvents_filter_exec (dataReg schemaReg : List (String × Json)) (q : String)
    (w : World) :
    (preEvents dataReg schemaReg q w).filter isExecCalled =
      [Event.execCalled
        (sanitize (get_local_response q (get_data_summary dataReg schemaReg) w.chat))
        [] (initialLocals dataReg)] := rfl

lemma preEvents_filter_chat (dataReg schemaReg : List (String × Json)) (q : String)
    (w : World) :
    (preEvents dataReg schemaReg q w).filter isChatCalled =
      [Event.chatCalled (mkChatRequest q (get_data_summary dataReg schemaReg))] := rfl

lemma tailEvents_filter_exec (dataReg : List (String × Json)) (code : String) (w : World) :
    (tailEvents dataReg code w).filter isExecCalled = [] := by
  simp only [tailEvents]
  repeat' first
    | rfl
    | split

lemma tailEvents_filter_chat (dataReg : List (String × Json)) (code : String) (w : World) :
    (tailEvents dataReg code w).filter isChatCalled = [] := by
  simp only [tailEvents]
  repeat' first
    | rfl
    | split


/-! ### Worlds used to witness the claims on concrete runs -/

/-- A run whose model call succeeds and whose executed code populates `fig`. -/
def wChartOk : World :=
  World.mk (fun _ => Except.ok "fig = px.bar(df)")
    (fun _ _ _ => Except.ok [("fig", PyVal.objV "chart")])
    (fun _ => Except.ok ()) (fun _ => Except.ok ())

/-- A run whose model call raises (message `42`) and whose `exec` succeeds
without populating either result slot. -/
def wChatFail : World :=
  World.mk (fun _ => Except.error "42")
    (fun _ _ l => Except.ok l)
    (fun _ => Except.ok ()) (fun _ => Except.ok ())

/-! ### The claims -/

/-- C4: for every non-empty query, the run performs exactly one `exec` call,
whose globals dictionary is empty and whose locals initially bind exactly the
four names `datasets` (bound to the data registry), `pd`, `px` and `go`. -/
theorem exec_fixed_environment (dataReg schemaReg : List (String × Json)) (q : String)
    (w : World) (hq : q ≠ "") :
    (runQuery dataReg schemaReg q w).filter isExecCalled
      = [Event.execCalled
          (sanitize (get_local_response q (get_data_summary dataReg schemaReg) w.chat))
          [] (initialLocals dataReg)] ∧
    dictKeys (initialLocals dataReg) = ["datasets", "pd", "px", "go"] ∧
    dictLookup "datasets" (initialLocals dataReg) = some (PyVal.datasetsV dataReg) := by
  refine ⟨?_, rfl, by simp [initialLocals, dictLookup]⟩
  rw [runQuery_decomp dataReg schemaReg q w hq, List.filter_append,
    preEvents_filter_exec, tailEvents_filter_exec, List.append_nil]

theorem exec_fixed_environment_witness :
    (runQuery [] [] "hi" wChartOk).filter isExecCalled
      = [Event.execCalled
          (sanitize (get_local_response "hi" (get_data_summary [] []) wChartOk.chat))
          [] (initialLocals [])] ∧
    dictKeys (initialLocals []) = ["datasets", "pd", "px", "go"] ∧
    dictLookup "datasets" (initialLocals []) = some (PyVal.datasetsV []) :=
  exec_fixed_environment [] [] "hi" wChartOk (by decide)

/-- C7: for every non-empty query, the run makes exactly one chat call, whose
request carries the fixed local model and the system message built from the
single prompt template instantiated with the data summary and the user query
(the query also being the user message), and that call happens after the
summary is built and before sanitization and execution. -/
theorem single_chat_call (dataReg schemaReg : List (String × Json)) (q : String)
    (w : World) (hq : q ≠ "") :
    (runQuery dataReg schemaReg q w).filter isChatCalled
      = [Event.chatCalled (mkChatRequest q (get_data_summary dataReg schemaReg))] ∧
    mkChatRequest q (get_data_summary dataReg schemaReg)
      = ChatRequest.mk "qwen2.5-coder:1.5b"
          [ChatMessage.mk "system" (systemPrompt (get_data_summary dataReg schemaReg) q),
           ChatMessage.mk "user" q] ∧
    (runQuery dataReg schemaReg q w).take 4
      = [Event.summaryBuilt (get_data_summary dataReg schemaReg),
         Event.chatCalled (mkChatRequest q (get_data_summary dataReg schemaReg)),
         Event.codeShown
           (sanitize (get_local_response q (get_data_summary dataReg schemaReg) w.chat)),
         Event.execCalled
           (sanitize (get_local_response q (get_data_summary dataReg schemaReg) w.chat))
           [] (initialLocals dataReg)] := by
  refine ⟨?_, rfl, ?_⟩
  · rw [runQuery_decomp dataReg schemaReg q w hq, List.filter_append,
      preEvents_filter_chat, tailEvents_filter_chat, List.append_nil]
  · rw [runQuery_decomp dataReg schemaReg q w hq]
    rw [show (4 : Nat) = (preEvents dataReg schemaReg q w).length from rfl, List.take_left]
    rfl

theorem single_chat_call_witness :
    (runQuery [] [] "hi" wChartOk).filter isChatCalled
      = [Event.chatCalled (mkChatRequest "hi" (get_data_summary [] []))] ∧
    mkChatRequest "hi" (get_data_summary [] [])
      = ChatRequest.mk "qwen2.5-coder:1.5b"
          [ChatMessage.mk "system" (systemPrompt (get_data_summary [] []) "hi"),
           ChatMessage.mk "user" "hi"] ∧
    (runQuery [] [] "hi" wChartOk).take 4
      = [Event.summaryBuilt (get_data_summary [] []),
         Event.chatCalled (mkChatRequest "hi" (get_data_summary [] [])),
         Event.codeShown
           (sanitize (get_local_response "hi" (get_data_summary [] []) wChartOk.chat)),
         Event.execCalled
           (sanitize (get_local_response "hi" (get_data_summary [] []) wChartOk.chat))
           [] (initialLocals [])] :=
  single_chat_call [] [] "hi" wChartOk (by decide)

/-- C3: for every non-empty query, the string passed to `exec` is the model
response with every occurrence of the python-tagged triple-backtick fence
removed, then every occurrence of the bare triple-backtick fence removed,
then stripped of surrounding
whitespace; consequently, for every string, the sanitized result contains no
occurrence of a triple backtick. -/
theorem sanitize_strips_fences (dataReg schemaReg : List (String × Json)) (q : String)
    (w : World) (hq : q ≠ "") :
    (runQuery dataReg schemaReg q w).filter isExecCalled
      = [Event.execCalled
          (sanitize (get_local_response q (get_data_summary dataReg schemaReg) w.chat))
          [] (initialLocals dataReg)] ∧
    (∀ s : String, sanitize s
        = String.mk (pyStrip (removeAll ("```".data) (removeAll ("```python".data) s.data)))) ∧
    (∀ s : String, hasSub ("```".data) (sanitize s).data = false) := by
  refine ⟨?_, fun s => rfl, sanitize_no_ticks⟩
  rw [runQuery_decomp dataReg schemaReg q w hq, List.filter_append,
    preEvents_filter_exec, tailEvents_filter_exec, List.append_nil]

theorem sanitize_strips_fences_witness :
    (runQuery [] [] "hi" wChartOk).filter isExecCalled
      = [Event.execCalled
          (sanitize (get_local_response "hi" (get_data_summary [] []) wChartOk.chat))
          [] (initialLocals [])] ∧
    (∀ s : String, sanitize s
        = String.mk (pyStrip (removeAll ("```".data) (removeAll ("```python".data) s.data)))) ∧
    (∀ s : String, hasSub ("```".data) (sanitize s).data = false) :=
  sanitize_strips_fences [] [] "hi" wChartOk (by decide)

/-- C8: `get_local_response` never raises: it returns the model content on a
successful chat call and the string `"Error: "` followed by the exception
message when the chat call raises; in the failure case that string (after
sanitization) is exactly the code passed to `exec`. -/
theorem local_response_never_raises (dataReg schemaReg : List (String × Json)) (q : String)
    (w : World) (hq : q ≠ "") :
    (∀ c, w.chat (mkChatRequest q (get_data_summary dataReg schemaReg)) = Except.ok c →
        get_local_response q (get_data_summary dataReg schemaReg) w.chat = c) ∧
    (∀ e, w.chat (mkChatRequest q (get_data_summary dataReg schemaReg)) = Except.error e →
        get_local_response q (get_data_summary dataReg schemaReg) w.chat = "Error: " ++ e ∧
        (runQuery dataReg schemaReg q w).filter isExecCalled
          = [Event.execCalled (sanitize ("Error: " ++ e)) [] (initialLocals dataReg)]) := by
  constructor
  · intro c hc
    simp [get_local_response, hc]
  · intro e he
    have hg : get_local_response q (get_data_summary dataReg schemaReg) w.chat
        = "Error: " ++ e := by
      simp [get_local_response, he]
    refine ⟨hg, ?_⟩
    rw [runQuery_decomp dataReg schemaReg q w hq, List.filter_append,
      preEvents_filter_exec, tailEvents_filter_exec, List.append_nil, hg]

theorem local_response_never_raises_witness :
    get_local_response "hi" (get_data_summary [] []) wChatFail.chat = "Error: " ++ "42" ∧
    (runQuery [] [] "hi" wChatFail).filter isExecCalled
      = [Event.execCalled (sanitize ("Error: " ++ "42")) [] (initialLocals [])] :=
  (local_response_never_raises [] [] "hi" wChatFail (by decide)).2 "42" rfl

lemma preEvents_filter_errored (dataReg schemaReg : List (String × Json)) (q : String)
    (w : World) :
    (preEvents dataReg schemaReg q w).filter isErrored = [] := rfl

/-- A run whose model call succeeds but whose `exec` raises. -/
def wExecFail : World :=
  World.mk (fun _ => Except.ok "df_result = 1")
    (fun _ _ _ => Except.error "boom")
    (fun _ => Except.ok ()) (fun _ => Except.ok ())

/-- C1: after a successful `exec`, the run renders the chart when `fig` is
present in the final locals (and then never renders a table, even when
`df_result` is also present), otherwise renders the table when `df_result`
is present, and warns when neither is present. -/
theorem render_priority (dataReg schemaReg : List (String × Json)) (q : String) (w : World)
    (env : List (String × PyVal)) (hq : q ≠ "")
    (hexec : w.exec (sanitize (get_local_response q (get_data_summary dataReg schemaReg) w.chat))
        [] (initialLocals dataReg) = Except.ok env) :
    (∀ v, dictLookup "fig" env = some v →
       (w.renderChart v = Except.ok () →
         ∃ pre, runQuery dataReg schemaReg q w = pre ++ [Event.chartShown v]) ∧
       (∀ u, Event.tableShown u ∉ runQuery dataReg schemaReg q w)) ∧
    (dictLookup "fig" env = none →
       ∀ v, dictLookup "df_result" env = some v → w.renderTable v = Except.ok () →
         ∃ pre, runQuery dataReg schemaReg q w = pre ++ [Event.tableShown v]) ∧
    (dictLookup "fig" env = none → dictLookup "df_result" env = none →
       ∃ pre, runQuery dataReg schemaReg q w = pre ++ [Event.warned noResultMsg]) := by
  have hdec := runQuery_decomp dataReg schemaReg q w hq
  refine ⟨?_, ?_, ?_⟩
  · intro v hfig
    constructor
    · intro hch
      exact ⟨preEvents dataReg schemaReg q w,
        by rw [hdec]; simp [tailEvents, hexec, hfig, hch]⟩
    · intro u hmem
      rw [hdec] at hmem
      rcases List.mem_append.mp hmem with hm | hm
      · simp [preEvents] at hm
      · revert hm
        simp only [tailEvents, hexec, hfig]
        cases w.renderChart v <;> simp
  · intro hfig v hdf htab
    exact ⟨preEvents dataReg schemaReg q w,
      by rw [hdec]; simp [tailEvents, hexec, hfig, hdf, htab]⟩
  · intro hfig hdf
    exact ⟨preEvents dataReg schemaReg q w,
      by rw [hdec]; simp [tailEvents, hexec, hfig, hdf]⟩

theorem render_priority_witness :
    (∀ v, dictLookup "fig" [("fig", PyVal.objV "chart")] = some v →
       (wChartOk.renderChart v = Except.ok () →
         ∃ pre, runQuery [] [] "hi" wChartOk = pre ++ [Event.chartShown v]) ∧
       (∀ u, Event.tableShown u ∉ runQuery [] [] "hi" wChartOk)) ∧
    (dictLookup "fig" [("fig", PyVal.objV "chart")] = none →
       ∀ v, dictLookup "df_result" [("fig", PyVal.objV "chart")] = some v →
         wChartOk.renderTable v = Except.ok () →
         ∃ pre, runQuery [] [] "hi" wChartOk = pre ++ [Event.tableShown v]) ∧
    (dictLookup "fig" [("fig", PyVal.objV "chart")] = none →
       dictLookup "df_result" [("fig", PyVal.objV "chart")] = none →
       ∃ pre, runQuery [] [] "hi" wChartOk = pre ++ [Event.warned noResultMsg]) :=
  render_priority [] [] "hi" wChartOk [("fig", PyVal.objV "chart")] (by decide) rfl

/-- C2 (amended): exceptions raised by `exec` or by a render call are the
ones the catch-all catches, and it displays exactly their message prefixed
with `Error: `, with no other handling; an exception raised by the chat call
never reaches the catch-all — it is caught inside `get_local_response` and
converted into the string `"Error: " + message`, which is then treated as
generated code. -/
theorem catchall_scope (dataReg schemaReg : List (String × Json)) (q : String) (w : World)
    (hq : q ≠ "") :
    (∀ e, w.exec (sanitize (get_local_response q (get_data_summary dataReg schemaReg) w.chat))
          [] (initialLocals dataReg) = Except.error e →
        (runQuery dataReg schemaReg q w).filter isErrored
          = [Event.errored ("Error: " ++ e)]) ∧
    (∀ env v e,
        w.exec (sanitize (get_local_response q (get_data_summary dataReg schemaReg) w.chat))
          [] (initialLocals dataReg) = Except.ok env →
        dictLookup "fig" env = some v → w.renderChart v = Except.error e →
        (runQuery dataReg schemaReg q w).filter isErrored
          = [Event.errored ("Error: " ++ e)]) ∧
    (∀ env v e,
        w.exec (sanitize (get_local_response q (get_data_summary dataReg schemaReg) w.chat))
          [] (initialLocals dataReg) = Except.ok env →
        dictLookup "fig" env = none → dictLookup "df_result" env = some v →
        w.renderTable v = Except.error e →
        (runQuery dataReg schemaReg q w).filter isErrored
          = [Event.errored ("Error: " ++ e)]) ∧
    (∀ env,
        w.exec (sanitize (get_local_response q (get_data_summary dataReg schemaReg) w.chat))
          [] (initialLocals dataReg) = Except.ok env →
        (∀ v, dictLookup "fig" env = some v → w.renderChart v = Except.ok () →
            (runQuery dataReg schemaReg q w).filter isErrored = []) ∧
        (∀ v, dictLookup "fig" env = none → dictLookup "df_result" env = some v →
            w.renderTable v = Except.ok () →
            (runQuery dataReg schemaReg q w).filter isErrored = []) ∧
        (dictLookup "fig" env = none → dictLookup "df_result" env = none →
            (runQuery dataReg schemaReg q w).filter isErrored = [])) ∧
    (∀ e, w.chat (mkChatRequest q (get_data_summary dataReg schemaReg)) = Except.error e →
        get_local_response q (get_data_summary dataReg schemaReg) w.chat = "Error: " ++ e) := by
  have hdec := runQuery_decomp dataReg schemaReg q w hq
  refine ⟨?_, ?_, ?_, ?_, ?_⟩
  · intro e hexec
    rw [hdec, List.filter_append, preEvents_filter_errored, List.nil_append]
    simp [tailEvents, hexec, isErrored]
  · intro env v e hexec hfig hch
    rw [hdec, List.filter_append, preEvents_filter_errored, List.nil_append]
    simp [tailEvents, hexec, hfig, hch, isErrored]
  · intro env v e hexec hfig hdf htab
    rw [hdec, List.filter_append, preEvents_filter_errored, List.nil_append]
    simp [tailEvents, hexec, hfig, hdf, htab, isErrored]
  · intro env hexec
    refine ⟨?_, ?_, ?_⟩
    · intro v hfig hch
      rw [hdec, List.filter_append, preEvents_filter_errored, List.nil_append]
      simp [tailEvents, hexec, hfig, hch, isErrored]
    · intro v hfig hdf htab
      rw [hdec, List.filter_append, preEvents_filter_errored, List.nil_append]
      simp [tailEvents, hexec, hfig, hdf, htab, isErrored]
    · intro hfig hdf
      rw [hdec, List.filter_append, preEvents_filter_errored, List.nil_append]
      simp [tailEvents, hexec, hfig, hdf, isErrored]
  · intro e he
    simp [get_local_response, he]

theorem catchall_scope_witness :
    (runQuery [] [] "hi" wExecFail).filter isErrored
      = [Event.errored ("Error: " ++ "boom")] :=
  (catchall_scope [] [] "hi" wExecFail (by decide)).1 "boom" rfl

/-- C2 counterexample to the claim as stated: in this run the chat call
raises an exception (message `42`), yet the run displays no error at all —
the exception's message is never shown by the catch-all; instead the string
`Error: 42` becomes the executed code, the `exec` oracle succeeds without
populating a result slot, and the run ends with the no-result warning. -/
theorem catchall_claim_cex :
    wChatFail.chat (mkChatRequest "show" (get_data_summary [("d.json", Json.num 7)] []))
      = Except.error "42" ∧
    (runQuery [("d.json", Json.num 7)] [] "show" wChatFail).filter isErrored = [] := by
  refine ⟨rfl, ?_⟩
  rw [runQuery_decomp _ _ _ _ (by decide), List.filter_append, preEvents_filter_errored,
    List.nil_append]
  simp [tailEvents, wChatFail, dictLookup, initialLocals, isErrored]

/-- C9: when several uploaded files share a name, the registry keeps only
the parsed content of the last such file in upload order; an earlier
same-named file's content is overwritten and absent. -/
theorem duplicate_name_last_wins (pre mid post : List UploadedFile) (f g : UploadedFile)
    (hname : f.name = g.name) (hpost : ∀ h, h ∈ post → h.name ≠ g.name) :
    dictLookup g.name (load_data_registry (some (pre ++ f :: (mid ++ g :: post))))
      = some g.content ∧
    (f.content ≠ g.content →
      dictLookup f.name (load_data_registry (some (pre ++ f :: (mid ++ g :: post))))
        ≠ some f.content) := by
  have h5 : findLast (fun x => x.name == g.name) post = none :=
    findLast_eq_none fun x hx => by simp [hpost x hx]
  have h4 : findLast (fun x => x.name == g.name) (g :: post) = some g := by
    simp only [findLast, h5]
    simp
  have h3 : findLast (fun x => x.name == g.name) (mid ++ g :: post) = some g := by
    rw [findLast_append, h4]
  have h2 : findLast (fun x => x.name == g.name) (f :: (mid ++ g :: post)) = some g := by
    simp only [findLast, h3]
  have hlast : findLast (fun x => x.name == g.name) (pre ++ f :: (mid ++ g :: post))
      = some g := by
    rw [findLast_append, h2]
  constructor
  · rw [load_registry_lookup, hlast]
    rfl
  · intro hne
    rw [hname, load_registry_lookup, hlast]
    intro hcon
    simp at hcon
    exact hne hcon.symm

theorem duplicate_name_last_wins_witness :
    dictLookup "a.json"
        (load_data_registry (some [UploadedFile.mk "a.json" (Json.num 1),
                                   UploadedFile.mk "a.json" (Json.num 2)]))
      = some (Json.num 2) ∧
    (Json.num 1 ≠ Json.num 2 →
      dictLookup "a.json"
          (load_data_registry (some [UploadedFile.mk "a.json" (Json.num 1),
                                     UploadedFile.mk "a.json" (Json.num 2)]))
        ≠ some (Json.num 1)) :=
  duplicate_name_last_wins [] [] [] (UploadedFile.mk "a.json" (Json.num 1))
    (UploadedFile.mk "a.json" (Json.num 2)) rfl
    (fun h hh => absurd hh (List.not_mem_nil h))

/-- C5 (amended): an absent or empty upload list yields the empty registry;
every uploaded file's name is a key of the registry, and each key maps to
the parsed JSON content of the last uploaded file bearing that name (hence
to the file's own content whenever no later upload shares its name); every
registry entry comes from some uploaded file. -/
theorem registry_last_content (files : List UploadedFile) :
    load_data_registry none = [] ∧
    load_data_registry (some []) = [] ∧
    (∀ f, f ∈ files →
      dictLookup f.name (load_data_registry (some files))
        = Option.map UploadedFile.content (findLast (fun x => x.name == f.name) files) ∧
      (findLast (fun x => x.name == f.name) files).isSome = true) ∧
    (∀ name v, dictLookup name (load_data_registry (some files)) = some v →
      ∃ f, f ∈ files ∧ f.name = name ∧ f.content = v) := by
  refine ⟨rfl, rfl, ?_, ?_⟩
  · intro f hf
    exact ⟨load_registry_lookup files f.name, findLast_isSome_of_mem hf (by simp)⟩
  · intro name v hv
    rw [load_registry_lookup] at hv
    cases hl : findLast (fun x => x.name == name) files with
    | none => rw [hl] at hv; simp at hv
    | some g =>
      rw [hl] at hv
      simp at hv
      obtain ⟨hm, hp⟩ := findLast_mem hl
      exact ⟨g, hm, by simpa using hp, hv⟩

theorem registry_last_content_witness :
    dictLookup "a.json"
        (load_data_registry (some [UploadedFile.mk "a.json" (Json.num 1),
                                   UploadedFile.mk "a.json" (Json.num 2)]))
      = Option.map UploadedFile.content
          (findLast (fun x => x.name == "a.json")
            [UploadedFile.mk "a.json" (Json.num 1), UploadedFile.mk "a.json" (Json.num 2)]) ∧
    (findLast (fun x => x.name == "a.json")
        [UploadedFile.mk "a.json" (Json.num 1),
         UploadedFile.mk "a.json" (Json.num 2)]).isSome = true :=
  (registry_last_content [UploadedFile.mk "a.json" (Json.num 1),
      UploadedFile.mk "a.json" (Json.num 2)]).2.2.1
    (UploadedFile.mk "a.json" (Json.num 1)) (by simp)

/-- C5 counterexample to the claim as stated: with two uploads both named
`a.json` (contents `1` and `2`), the registry does not map the first file's
name to that file's content — the key `a.json` holds `2`, not `1`. -/
theorem registry_first_content_cex :
    dictLookup "a.json"
        (load_data_registry (some [UploadedFile.mk "a.json" (Json.num 1),
                                   UploadedFile.mk "a.json" (Json.num 2)]))
      = some (Json.num 2) ∧ Json.num 2 ≠ Json.num 1 := by
  refine ⟨by simp [load_data_registry, dictInsert, dictLookup], ?_⟩
  intro h
  injection h with h
  exact absurd h (by decide)

/-- C6: the data summary is the in-order concatenation, over the data
registry, of per-dataset blocks; each block is the header line carrying the
file name, then the schema serialized as JSON exactly when a schema with the
same file name is registered, then a sample holding only the first element
of a non-empty list, or only the first two key-value pairs of a dict. -/
theorem summary_block_structure (dataReg schemaReg : List (String × Json)) :
    get_data_summary dataReg schemaReg
      = concatAll (dataReg.map fun p => datasetBlock schemaReg p.1 p.2) ∧
    (∀ name sc data, dictLookup name schemaReg = some sc →
        datasetBlock schemaReg name data
          = "\n--- DATASET: " ++ name ++ " ---\n" ++ ("Schema: " ++ dumps sc ++ "\n")
            ++ samplePart data) ∧
    (∀ name data, dictLookup name schemaReg = none →
        datasetBlock schemaReg name data
          = "\n--- DATASET: " ++ name ++ " ---\n" ++ samplePart data) ∧
    (∀ x xs, samplePart (Json.arr (x :: xs)) = "Sample: " ++ dumps (Json.arr [x]) ++ "\n") ∧
    (∀ fields, samplePart (Json.obj fields)
        = "Sample: " ++ dumps (Json.obj (fields.take 2)) ++ "\n") := by
  refine ⟨get_data_summary_eq_concat dataReg schemaReg, ?_, ?_,
    fun x xs => rfl, fun fields => rfl⟩
  · intro name sc data hs
    simp [datasetBlock, hs, String.append_assoc]
  · intro name data hs
    simp [datasetBlock, hs, String.append_assoc, String.append_empty]

theorem summary_block_structure_witness :
    get_data_summary [("d.json", Json.num 7)] []
      = concatAll ([("d.json", Json.num 7)].map fun p => datasetBlock [] p.1 p.2) ∧
    (∀ name sc data, dictLookup name ([] : List (String × Json)) = some sc →
        datasetBlock [] name data
          = "\n--- DATASET: " ++ name ++ " ---\n" ++ ("Schema: " ++ dumps sc ++ "\n")
            ++ samplePart data) ∧
    (∀ name data, dictLookup name ([] : List (String × Json)) = none →
        datasetBlock [] name data
          = "\n--- DATASET: " ++ name ++ " ---\n" ++ samplePart data) ∧
    (∀ x xs, samplePart (Json.arr (x :: xs)) = "Sample: " ++ dumps (Json.arr [x]) ++ "\n") ∧
    (∀ fields, samplePart (Json.obj fields)
        = "Sample: " ++ dumps (Json.obj (fields.take 2)) ++ "\n") :=
  summary_block_structure [("d.json", Json.num 7)] []

/-- Is the parsed content an empty list, or neither a list nor a dict? -/
def isScalarOrEmptyList : Json → Bool
  | Json.arr [] => true
  | Json.arr (_ :: _) => false
  | Json.obj _ => false
  | _ => true

/-- C10: a dataset whose content is an empty list, or neither a list nor a
dict, contributes a block consisting of its header line and its schema line
(when a matching schema exists) and no sample line at all. -/
theorem scalar_dataset_no_sample (dataReg schemaReg : List (String × Json))
    (name : String) (data : Json)
    (hmem : (name, data) ∈ dataReg) (hshape : isScalarOrEmptyList data = true) :
    get_data_summary dataReg schemaReg
      = concatAll (dataReg.map fun p => datasetBlock schemaReg p.1 p.2) ∧
    datasetBlock schemaReg name data
      = "\n--- DATASET: " ++ name ++ " ---\n"
        ++ (match dictLookup name schemaReg with
            | some sc => "Schema: " ++ dumps sc ++ "\n"
            | none => "") ∧
    samplePart data = "" := by
  have hsp : samplePart data = "" := by
    cases data with
    | arr xs =>
      cases xs with
      | nil => rfl
      | cons x r => simp [isScalarOrEmptyList] at hshape
    | obj fs => simp [isScalarOrEmptyList] at hshape
    | null => rfl
    | bool b => rfl
    | num n => rfl
    | str s => rfl
  refine ⟨get_data_summary_eq_concat dataReg schemaReg, ?_, hsp⟩
  simp only [datasetBlock, hsp, String.append_empty]

theorem scalar_dataset_no_sample_witness :
    get_data_summary [("d.json", Json.str "x")] []
      = concatAll ([("d.json", Json.str "x")].map fun p => datasetBlock [] p.1 p.2) ∧
    datasetBlock [] "d.json" (Json.str "x")
      = "\n--- DATASET: " ++ "d.json" ++ " ---\n"
        ++ (match dictLookup "d.json" ([] : List (String × Json)) with
            | some sc => "Schema: " ++ dumps sc ++ "\n"
            | none => "") ∧
    samplePart (Json.str "x") = "" :=
  scalar_dataset_no_sample [("d.json", Json.str "x")] [] "d.json" (Json.str "x")
    (by simp) rfl
